import Mathlib

/-!
Verification development for the StreamBoard repository (a VATSIM flight
board).  The JavaScript sources are shallowly embedded: module-level caches
become explicit `Option`-typed parameters, JS numbers become an arbitrary
linear ordered field `K` (instantiated at `ℚ` for computation and at `ℝ`
when the real haversine distance is needed), JS `null`/`undefined` string
fields become `Option String`, and the engine's stable `Array.sort` becomes
`List.insertionSort` (a stable sort) over the JS comparator discipline
`comparator a b ≤ 0`.

Embedded modules:
* `src/js/distance.js`   — `toRadians`, `haversine` (over `ℝ`).
* `src/js/airports.js`   — `parseVATSpyData`, `getAirport`, `searchAirports`.
* `src/js/airlines.js`   — `isNNumber`, `isConcorde`, `isIataCode`,
  `extractAirlinePrefix` (here `extractAirlineCode`), `extractFlightNumber`,
  `getAirlineInfo`.
* `src/unnamed/part_000` (vatsim data module) — `detectFlightStage`,
  `processPilot`, `getFlightsForAirport`.
* `src/js/app.js`        — the pagination recompute of `renderFlights`
  (lines 317-324) and the pre-mode advance `cyclePre` (lines 419-444).
-/

namespace StreamBoard

/-! ### JS string primitives

Lean core's `String` functions (`toUpper`, `trim`, `splitOn`, …) are defined
by well-founded recursion over byte positions and do not reduce in the
kernel, so the JS string primitives are embedded directly over the
character list `String.data`.  `Char.toUpper` matches JS `toUpperCase` on
the ASCII range this application manipulates. -/

/-- JS `s.toUpperCase()` (ASCII model). -/
def jsToUpper (s : String) : String := ⟨s.data.map Char.toUpper⟩

/-- The whitespace characters stripped by JS `trim` that occur in the data. -/
def isWsChar (c : Char) : Bool :=
  decide (c = ' ' ∨ c = '\t' ∨ c = '\n' ∨ c = '\r')

/-- JS `s.trim()`. -/
def jsTrim (s : String) : String :=
  ⟨((s.data.dropWhile isWsChar).reverse.dropWhile isWsChar).reverse⟩

/-- Split a character list at every occurrence of `sep` (JS
`String.prototype.split` with a one-character separator). -/
def splitCharList (sep : Char) : List Char → List (List Char)
  | [] => [[]]
  | c :: rest =>
    match splitCharList sep rest with
    | h :: t => if c = sep then [] :: h :: t else (c :: h) :: t
    | [] => if c = sep then [[], []] else [[c]]

/-- JS `s.split(sep)` for a one-character separator. -/
def splitOnChar (sep : Char) (s : String) : List String :=
  (splitCharList sep s.data).map fun l => ⟨l⟩

/-- JS `s.startsWith(c)` for a one-character pattern. -/
def startsWithChar (c : Char) (s : String) : Bool :=
  match s.data with
  | d :: _ => decide (d = c)
  | [] => false

/-- JS `s || null` on a string: the empty string is falsy. -/
def jsOrNullStr (s : String) : Option String :=
  if s = "" then none else some s

/-- JS `x || null` on a string that may already be null/undefined. -/
def jsOrNull : Option String → Option String
  | some s => jsOrNullStr s
  | none => none

/-- JS `s.includes(sub)`: substring containment. -/
def strContains (s sub : String) : Bool :=
  decide (sub.data <:+: s.data)

/-- JS `s.length` (character count model) without going through `String`'s
irreducible byte-position API. -/
def strLen (s : String) : Nat := s.data.length

/-- JS `s.substring(0, n)`. -/
def strTake (s : String) (n : Nat) : String := ⟨s.data.take n⟩

/-- JS `s.substring(n)`. -/
def strDrop (s : String) (n : Nat) : String := ⟨s.data.drop n⟩

/-! ### src/js/distance.js -/

/-- `EARTH_RADIUS_NM` of src/js/distance.js. -/
def EARTH_RADIUS_NM : ℝ := 3440.065

/-- `toRadians` of src/js/distance.js. -/
noncomputable def toRadians (degrees : ℝ) : ℝ := degrees * (Real.pi / 180)

/-- JS `Math.atan2(y, x)`: the argument of the point `(x, y)`, in
`(-π, π]`, with `atan2 0 0 = 0` — exactly `Complex.arg`. -/
noncomputable def atan2 (y x : ℝ) : ℝ := Complex.arg ⟨x, y⟩

/-- `haversine` of src/js/distance.js, over the reals. -/
noncomputable def haversine (lat1 lon1 lat2 lon2 : ℝ) : ℝ :=
  let dLat := toRadians (lat2 - lat1)
  let dLon := toRadians (lon2 - lon1)
  let a := Real.sin (dLat / 2) * Real.sin (dLat / 2) +
    Real.cos (toRadians lat1) * Real.cos (toRadians lat2) *
    Real.sin (dLon / 2) * Real.sin (dLon / 2)
  let c := 2 * atan2 (Real.sqrt a) (Real.sqrt (1 - a))
  EARTH_RADIUS_NM * c

/-! ### src/js/airports.js -/

/-- An airport record as built by `parseVATSpyData`. -/
structure Airport (K : Type) where
  icao : String
  name : String
  lat : K
  lon : K
  iata : Option String
  fir : String
deriving DecidableEq

/-- JS `Map.set`: replace the value in place if the key is present,
otherwise append (insertion order preserved). -/
def mapSet {A : Type} (m : List (String × A)) (k : String) (v : A) :
    List (String × A) :=
  if m.any fun kv => kv.1 == k then
    m.map fun kv => if kv.1 == k then (k, v) else kv
  else m ++ [(k, v)]

/-- One loop iteration of `parseVATSpyData` (src/js/airports.js lines
19-58).  The state is `(inAirportsSection, airports)`.  `pf` models JS
`parseFloat`, with `none` for `NaN`. -/
def vatspyStep {K : Type} (pf : String → Option K)
    (st : Bool × List (String × Airport K)) (line : String) :
    Bool × List (String × Airport K) :=
  let trimmed := jsTrim line
  if startsWithChar '[' trimmed then (trimmed = "[Airports]", st.2)
  else if trimmed = "" ∨ startsWithChar ';' trimmed then st
  else if st.1 then
    let parts := splitOnChar '|' trimmed
    if 6 ≤ parts.length then
      let icao := jsToUpper (jsTrim (parts.getD 0 ""))
      let nm := jsTrim (parts.getD 1 "")
      let lat? := pf (parts.getD 2 "")
      let lon? := pf (parts.getD 3 "")
      let iata := jsOrNullStr (jsTrim (parts.getD 4 ""))
      let fir := jsTrim (parts.getD 5 "")
      let isPseudo := parts.getD 6 "" = "1"
      if isPseudo then st
      else
        match lat?, lon? with
        | some la, some lo => (st.1, mapSet st.2 icao ⟨icao, nm, la, lo, iata, fir⟩)
        | _, _ => st
    else st
  else st

/-- `parseVATSpyData` of src/js/airports.js: fold the step over the lines
of the file. -/
def parseVATSpyData {K : Type} (pf : String → Option K) (content : String) :
    List (String × Airport K) :=
  ((splitOnChar '\n' content).foldl (vatspyStep pf) (false, [])).2

/-- `getAirport` of src/js/airports.js; `cache` is the module-level
`airportsCache` (`none` before any load). -/
def getAirport {K : Type} (cache : Option (List (String × Airport K)))
    (icao : String) : Option (Airport K) :=
  match cache with
  | none => none
  | some m => m.lookup (jsToUpper icao)

/-- The match predicate of `searchAirports` (ICAO, name or IATA substring,
case-insensitive). -/
def airportMatches {K : Type} (upperQuery : String) (a : Airport K) : Bool :=
  strContains a.icao upperQuery ||
  strContains (jsToUpper a.name) upperQuery ||
  (match a.iata with
   | some i => strContains (jsToUpper i) upperQuery
   | none => false)

/-- The collection loop of `searchAirports`, with the early exit once
`limit` results are collected. -/
def searchGo {K : Type} (upperQuery : String) (limit : Int) :
    List (Airport K) → List (Airport K) → List (Airport K)
  | [], results => results
  | a :: rest, results =>
    if airportMatches upperQuery a then
      let results2 := results ++ [a]
      if limit ≤ (results2.length : Int) then results2
      else searchGo upperQuery limit rest results2
    else searchGo upperQuery limit rest results

/-- `searchAirports` of src/js/airports.js. -/
def searchAirports {K : Type} (cache : Option (List (String × Airport K)))
    (query : String) (limit : Int) : List (Airport K) :=
  match cache with
  | none => []
  | some m =>
    if query = "" then []
    else searchGo (jsToUpper query) limit (m.map fun kv => kv.2) []

/-! ### src/js/airlines.js -/

/-- An entry of the airlines table (`config/airlines.json`). -/
structure AirlineRec where
  name : String
  website : Option String
deriving DecidableEq

/-- The result object of `getAirlineInfo`; `pfx` is the source's `prefix`
field. -/
structure AirlineInfo where
  pfx : String
  name : Option String
  website : Option String
  flightNumber : Option String
deriving DecidableEq

/-- ASCII digit test (regex class `[0-9]`). -/
def isDigitChar (c : Char) : Bool := decide ('0' ≤ c ∧ c ≤ '9')

/-- ASCII uppercase letter test (regex class `[A-Z]`). -/
def isUpperChar (c : Char) : Bool := decide ('A' ≤ c ∧ c ≤ 'Z')

/-- `isNNumber` of src/js/airlines.js: the regex
`/^N[0-9]{1,5}[A-Z]{0,2}$/` applied to the uppercased callsign.  Because
the digit and letter classes are disjoint, the regex accepts exactly the
strings `N` ++ (maximal digit run of length 1..5) ++ (letter run of length
0..2), which is what the `takeWhile`/`dropWhile` split decides. -/
def isNNumber (callsign : String) : Bool :=
  if callsign = "" then false
  else
    match (jsToUpper callsign).data with
    | c :: rest =>
      decide (c = 'N') &&
        (decide (1 ≤ (rest.takeWhile isDigitChar).length) &&
         decide ((rest.takeWhile isDigitChar).length ≤ 5) &&
         decide ((rest.dropWhile isDigitChar).length ≤ 2) &&
         (rest.dropWhile isDigitChar).all isUpperChar)
    | [] => false

/-- The pattern C3 ascribes to the private-registration branch, transcribed
from the spec's words: the letter `N` followed by 1-5 alphanumeric
characters, with at most the last two being letters (i.e. every character
before the last two is a digit). -/
def specNNumber (callsign : String) : Bool :=
  match (jsToUpper callsign).data with
  | c :: rest =>
    decide (c = 'N') && decide (1 ≤ rest.length) && decide (rest.length ≤ 5) &&
      rest.all (fun ch => isDigitChar ch || isUpperChar ch) &&
      (rest.take (rest.length - 2)).all isDigitChar
  | [] => false

/-- `isConcorde` of src/js/airlines.js. -/
def isConcorde (callsign : String) : Bool :=
  if callsign = "" then false
  else decide ("CONC".data <+: (jsToUpper callsign).data)

/-- `isIataCode` of src/js/airlines.js: regex `/^[A-Z]{2}[0-9]/` on the
uppercased callsign (with the length-3 pre-check of the source). -/
def isIataCode (callsign : String) : Bool :=
  if callsign = "" ∨ strLen callsign < 3 then false
  else
    match (jsToUpper callsign).data with
    | a :: b :: c :: _ => isUpperChar a && isUpperChar b && isDigitChar c
    | _ => false

/-- `extractAirlinePrefix` of src/js/airlines.js (renamed): the uppercased
first three characters when they are all letters, else `null`. -/
def extractAirlineCode (callsign : String) : Option String :=
  if callsign = "" ∨ strLen callsign < 3 then none
  else
    let pfx := jsToUpper (strTake callsign 3)
    if pfx.data.all isUpperChar then some pfx else none

/-- `extractFlightNumber` of src/js/airlines.js. -/
def extractFlightNumber (callsign : String) : Option String :=
  if callsign = "" ∨ strLen callsign ≤ 3 then none
  else
    match extractAirlineCode callsign with
    | none => none
    | some _ => jsOrNullStr (jsToUpper (strDrop callsign 3))

/-- The tail of `getAirlineInfo` after the private-registration branch
(src/js/airlines.js lines 119-167); `cache` is the module-level
`airlinesCache` (`none` before any load). -/
def airlineInfoAfterN (cache : Option (List (String × AirlineRec)))
    (callsign : String) : AirlineInfo :=
  if isConcorde callsign then
    ⟨"CONC", some "Concorde", none, jsOrNullStr (jsToUpper (strDrop callsign 4))⟩
  else if isIataCode callsign then
    ⟨jsToUpper (strTake callsign 2), some "Unknown Airline (IATA Code)", none, none⟩
  else
    let pfx? := extractAirlineCode callsign
    let fn := extractFlightNumber callsign
    match pfx?, cache with
    | some pfx, some table =>
      match table.lookup pfx with
      | some airline => ⟨pfx, some airline.name, airline.website, fn⟩
      | none => ⟨pfx, none, none, fn⟩
    | some pfx, none => ⟨pfx, none, none, fn⟩
    | none, _ => ⟨jsToUpper (strTake callsign 3), none, none, fn⟩

/-- `getAirlineInfo` of src/js/airlines.js (lines 108-168): the
private-registration branch first, then the remaining cascade. -/
def getAirlineInfo (cache : Option (List (String × AirlineRec)))
    (callsign : String) : AirlineInfo :=
  if isNNumber callsign then
    ⟨jsToUpper callsign, some "Private (United States)", none, none⟩
  else airlineInfoAfterN cache callsign

/-! ### src/unnamed/part_000 — the vatsim data module -/

/-- The four flight stages returned by `detectFlightStage`. -/
inductive Stage where
  | ground
  | departing
  | cruising
  | arriving
deriving DecidableEq

/-- A VATSIM flight plan (the fields the module consumes); `none` models a
JS `null`/`undefined` field. -/
structure FlightPlan where
  departure : Option String
  arrival : Option String
  aircraft_short : Option String
deriving DecidableEq

/-- A VATSIM pilot record (the fields the module consumes). -/
structure Pilot (K : Type) where
  cid : Int
  callsign : String
  name : String
  latitude : K
  longitude : K
  altitude : K
  groundspeed : K
  heading : K
  flight_plan : Option FlightPlan
  logon_time : String
  last_updated : String
deriving DecidableEq

/-- The raw VATSIM snapshot (the fields `getFlightsForAirport` consumes);
`pilots = none` models an absent `pilots` field. -/
structure VatsimData (K : Type) where
  pilots : Option (List (Pilot K))
deriving DecidableEq

/-- The enriched flight object built by `processPilot`. -/
structure EnrichedFlight (K : Type) where
  cid : Int
  callsign : String
  name : String
  latitude : K
  longitude : K
  altitude : K
  groundspeed : K
  heading : K
  aircraft : String
  departure : String
  arrival : String
  routeIcao : String
  routeName : String
  stage : Stage
  distanceFromAirport : K
  ete : Option K
  depAirport : Option (Airport K)
  arrAirport : Option (Airport K)
  logonTime : String
  lastUpdated : String
deriving DecidableEq

variable {K : Type} [LinearOrderedField K]

/-- `d < c` where `d` is a distance initialised to JS `Infinity` (`none`)
and only set when the airport is known: `Infinity < c` is false. -/
def infLt (d : Option K) (c : K) : Bool :=
  match d with
  | none => false
  | some x => decide (x < c)

/-- `d < e` on two possibly-`Infinity` distances: `Infinity` is larger than
every finite value and `Infinity < Infinity` is false. -/
def infLt2 (d e : Option K) : Bool :=
  match d, e with
  | none, _ => false
  | some _, none => true
  | some x, some y => decide (x < y)

/-- `detectFlightStage` of src/unnamed/part_000 (lines 35-83).  `hav`
abstracts the `haversine` import; distances to unknown airports stay at
their JS initial value `Infinity` (`none`). -/
def detectFlightStage (hav : K → K → K → K → K) (pilot : Pilot K)
    (depAirport arrAirport : Option (Airport K)) : Stage :=
  if pilot.groundspeed < 50 ∧ pilot.altitude < 500 then .ground
  else
    let distFromDep : Option K :=
      depAirport.map fun a => hav pilot.latitude pilot.longitude a.lat a.lon
    let distFromArr : Option K :=
      arrAirport.map fun a => hav pilot.latitude pilot.longitude a.lat a.lon
    if pilot.altitude < 10000 ∧ infLt distFromDep 50 = true then .departing
    else if pilot.altitude < 10000 ∧ infLt distFromArr 100 = true then .arriving
    else if 25000 < pilot.altitude then .cruising
    else if infLt2 distFromDep distFromArr then .departing
    else .arriving

/-- `processPilot` of src/unnamed/part_000 (lines 92-145).  `cache` is the
airports registry consulted through `getAirport`. -/
def processPilot (hav : K → K → K → K → K)
    (cache : Option (List (String × Airport K))) (pilot : Pilot K)
    (selectedAirport : Airport K) (mode : String) : EnrichedFlight K :=
  let depIcao := jsOrNull (pilot.flight_plan.bind fun fp => fp.departure)
  let arrIcao := jsOrNull (pilot.flight_plan.bind fun fp => fp.arrival)
  let depAirport := depIcao.bind fun i => getAirport cache i
  let arrAirport := arrIcao.bind fun i => getAirport cache i
  let distanceFromAirport :=
    hav pilot.latitude pilot.longitude selectedAirport.lat selectedAirport.lon
  let stage := detectFlightStage hav pilot depAirport arrAirport
  let routeIcao :=
    if mode = "dep" then arrIcao.getD "Unknown" else depIcao.getD "Unknown"
  let routeAirport := if mode = "dep" then arrAirport else depAirport
  let routeName :=
    match routeAirport with
    | some a => a.name
    | none => "Unknown"
  let ete : Option K :=
    if 50 < pilot.groundspeed ∧ 0 < distanceFromAirport then
      some (distanceFromAirport / pilot.groundspeed * 60)
    else none
  { cid := pilot.cid
    callsign := pilot.callsign
    name := pilot.name
    latitude := pilot.latitude
    longitude := pilot.longitude
    altitude := pilot.altitude
    groundspeed := pilot.groundspeed
    heading := pilot.heading
    aircraft := (jsOrNull (pilot.flight_plan.bind fun fp => fp.aircraft_short)).getD "Unknown"
    departure := depIcao.getD "Unknown"
    arrival := arrIcao.getD "Unknown"
    routeIcao := routeIcao
    routeName := routeName
    stage := stage
    distanceFromAirport := distanceFromAirport
    ete := ete
    depAirport := depAirport
    arrAirport := arrAirport
    logonTime := pilot.logon_time
    lastUpdated := pilot.last_updated }

/-- The inclusion test of the filter loop of `getFlightsForAirport`
(src/unnamed/part_000 lines 163-194). -/
def includePilot (hav : K → K → K → K → K) (upperIcao : String)
    (selectedAirport : Airport K) (mode : String) (pilot : Pilot K) : Bool :=
  if mode = "dep" then
    match pilot.flight_plan with
    | some fp =>
      if fp.departure = some upperIcao then true
      else if fp.departure = none ∨ fp.departure = some "" then
        decide (hav pilot.latitude pilot.longitude
            selectedAirport.lat selectedAirport.lon < 10 ∧ pilot.altitude < 3000)
      else false
    | none =>
      decide (hav pilot.latitude pilot.longitude
          selectedAirport.lat selectedAirport.lon < 10 ∧ pilot.altitude < 3000)
  else if mode = "arr" then
    match pilot.flight_plan with
    | some fp => decide (fp.arrival = some upperIcao)
    | none => false
  else false

/-- The final sort of `getFlightsForAirport` (line 197): the engine's
stable `Array.sort` with comparator `a.routeName.localeCompare(b.routeName)`
— modelled by the stable `List.insertionSort` under the JS sort discipline
"`a` may precede `b` iff the comparator is ≤ 0".  `lc` abstracts
`localeCompare`. -/
def sortFlights (lc : String → String → Int) (l : List (EnrichedFlight K)) :
    List (EnrichedFlight K) :=
  l.insertionSort fun a b => lc a.routeName b.routeName ≤ 0

/-- `getFlightsForAirport` of src/unnamed/part_000 (lines 155-200): guard,
filter, enrich, sort. -/
def getFlightsForAirport (hav : K → K → K → K → K)
    (lc : String → String → Int)
    (cache : Option (List (String × Airport K)))
    (vatsimData : Option (VatsimData K)) (icao : String) (mode : String)
    (selectedAirport : Airport K) : List (EnrichedFlight K) :=
  match vatsimData with
  | none => []
  | some data =>
    match data.pilots with
    | none => []
    | some pilots =>
      let upperIcao := jsToUpper icao
      sortFlights lc
        ((pilots.filter fun p => includePilot hav upperIcao selectedAirport mode p).map
          fun p => processPilot hav cache p selectedAirport mode)

/-! ### src/js/app.js — pagination and pre-mode cycling -/

/-- The slice of the application state the scheduler owns. -/
structure PageState where
  currentPage : Nat
  totalPages : Nat
  flightsPerPage : Nat
  displayMode : String
  preCountdown : Int
deriving DecidableEq

/-- `Math.ceil(n / ps)` on naturals (for `1 ≤ ps`). -/
def ceilDiv (n ps : Nat) : Nat := (n + ps - 1) / ps

/-- The pagination recompute of `renderFlights` (src/js/app.js lines
317-324), reached only with a non-empty flight list: set
`flightsPerPage`, set `totalPages = ceil(flightCount / pageSize)`, and
reset `currentPage` to 0 when it is no longer valid. -/
def recomputePagination (s : PageState) (flightCount pageSize : Nat) :
    PageState :=
  let tp := ceilDiv flightCount pageSize
  { s with
    flightsPerPage := pageSize
    totalPages := tp
    currentPage := if tp ≤ s.currentPage then 0 else s.currentPage }

/-- `cyclePre` of src/js/app.js (lines 419-444), restricted to the state it
mutates: reset the countdown to 15, then either move to the next page or
flip the display mode and return to page 0. -/
def cyclePre (s : PageState) : PageState :=
  let s1 := { s with preCountdown := 15 }
  if s1.currentPage < s1.totalPages - 1 then
    { s1 with currentPage := s1.currentPage + 1 }
  else
    { s1 with
      displayMode := if s1.displayMode = "dep" then "arr" else "dep"
      currentPage := 0 }

/-! ### Concrete sample data and model instances used by closed theorems -/

/-- A model of JS `parseFloat` covering the unsigned integer literals used
in concrete examples: `none` models `NaN` for every other string. -/
def parseFloatNat (s : String) : Option ℚ :=
  if s ≠ "" ∧ s.data.all isDigitChar then
    some ((s.data.foldl (fun acc c => acc * 10 + (c.toNat - 48)) 0 : Nat) : ℚ)
  else none

/-- A concrete `localeCompare` model ranking strings by their first
character's code point; it is a total preorder comparator. -/
def lcRank (a b : String) : Int :=
  ((a.data.headD 'A').toNat : Int) - ((b.data.headD 'A').toNat : Int)

/-- Sample airport over `ℚ` (concrete computations). -/
def apQ : Airport ℚ := ⟨"KJFK", "John F Kennedy Intl", 40, -73, some "JFK", "KZNY"⟩

/-- Sample pilot whose flight plan declares the two-letter arrival "ZZ". -/
def pZZ : Pilot ℚ := ⟨2, "DAL1", "P", 0, 0, 0, 0, 0, some ⟨some "KJFK", some "ZZ", none⟩, "t", "u"⟩

/-- Sample airport over `ℝ` (real haversine distances). -/
def apW : Airport ℝ := ⟨"KLAX", "Los Angeles Intl", 33, -118, some "LAX", "KZLA"⟩

/-- Sample pilot over `ℝ` arriving at `apW`. -/
def pW : Pilot ℝ := ⟨7, "DAL100", "Crew", 34, -118, 12000, 250, 90, some ⟨some "KJFK", some "KLAX", some "B763"⟩, "t", "u"⟩

/-- Sample enriched flight with route name "Atlanta". -/
def atlFlight : EnrichedFlight ℚ :=
  ⟨1, "DAL2", "A", 0, 0, 0, 0, 0, "U", "U", "U", "KATL", "Atlanta", Stage.ground, 0, none, none, none, "t", "u"⟩

/-- Sample enriched flight with route name "Boston". -/
def bosFlight : EnrichedFlight ℚ :=
  ⟨2, "DAL3", "B", 0, 0, 0, 0, 0, "U", "U", "U", "KBOS", "Boston", Stage.ground, 0, none, none, none, "t", "u"⟩

/-! ### Helper lemmas -/

theorem stage_cases (s : Stage) :
    s = Stage.ground ∨ s = Stage.departing ∨ s = Stage.cruising ∨ s = Stage.arriving := by
  cases s
  · exact Or.inl rfl
  · exact Or.inr (Or.inl rfl)
  · exact Or.inr (Or.inr (Or.inl rfl))
  · exact Or.inr (Or.inr (Or.inr rfl))

theorem jsOrNull_eq_some (o : Option String) (t : String) :
    jsOrNull o = some t ↔ o = some t ∧ t ≠ "" := by
  cases o with
  | none => simp [jsOrNull]
  | some s =>
    by_cases h : s = ""
    · subst h
      simp only [jsOrNull, jsOrNullStr, if_pos rfl]
      constructor
      · intro h; exact absurd h (by simp)
      · rintro ⟨h1, h2⟩
        exact absurd (Option.some_injective _ h1).symm h2
    · simp only [jsOrNull, jsOrNullStr, if_neg h, Option.some_inj]
      constructor
      · rintro rfl; exact ⟨rfl, h⟩
      · rintro ⟨h1, _⟩; exact h1

theorem haversine_nonneg (lat1 lon1 lat2 lon2 : ℝ) :
    0 ≤ haversine lat1 lon1 lat2 lon2 := by
  simp only [haversine, atan2]
  refine mul_nonneg (by norm_num [EARTH_RADIUS_NM]) ?_
  exact mul_nonneg (by norm_num) (Complex.arg_nonneg_iff.mpr (Real.sqrt_nonneg _))

theorem ceilDiv_pos (n ps : Nat) (h1 : 1 ≤ n) (h2 : 1 ≤ ps) :
    1 ≤ ceilDiv n ps := by
  unfold ceilDiv
  rw [Nat.one_le_div_iff (by omega)]
  omega

theorem upper_not_digit (c : Char) (h : isUpperChar c = true) :
    isDigitChar c = false := by
  simp only [isUpperChar, decide_eq_true_eq] at h
  simp only [isDigitChar, decide_eq_false_iff_not, not_and, not_le]
  intro _
  calc ('9' : Char) < 'A' := by decide
    _ ≤ c := h.1

theorem takeWhile_append_all {α : Type} (p : α → Bool) (ds ls : List α)
    (hds : ∀ c ∈ ds, p c = true) (hls : ∀ c ∈ ls, p c = false) :
    (ds ++ ls).takeWhile p = ds := by
  induction ds with
  | nil =>
    cases ls with
    | nil => rfl
    | cons c t => simp [List.takeWhile, hls c (List.mem_cons_self c t)]
  | cons d ds ih =>
    simp only [List.cons_append, List.takeWhile]
    rw [hds d (List.mem_cons_self d ds)]
    simp only [List.cons.injEq, true_and]
    exact ih fun c hc => hds c (List.mem_cons_of_mem d hc)

theorem dropWhile_append_all {α : Type} (p : α → Bool) (ds ls : List α)
    (hds : ∀ c ∈ ds, p c = true) (hls : ∀ c ∈ ls, p c = false) :
    (ds ++ ls).dropWhile p = ls := by
  induction ds with
  | nil =>
    cases ls with
    | nil => rfl
    | cons c t => simp [List.dropWhile, hls c (List.mem_cons_self c t)]
  | cons d ds ih =>
    simp only [List.cons_append, List.dropWhile]
    rw [hds d (List.mem_cons_self d ds)]
    exact ih fun c hc => hds c (List.mem_cons_of_mem d hc)

/-! ### The claims -/

/-- C5: for every pilot processed by the pipeline, `estimatedTimeEnroute`
(`ete`) is non-null exactly when groundspeed > 50 kts and the distance from
the queried airport is > 0, and in that case it equals
`(distance / groundspeed) * 60` minutes; otherwise it is null
(src/unnamed/part_000 lines 116-121). -/
theorem claim5_ete {K : Type} [LinearOrderedField K] (hav : K → K → K → K → K)
    (cache : Option (List (String × Airport K))) (pilot : Pilot K)
    (ap : Airport K) (mode : String) :
    ((processPilot hav cache pilot ap mode).ete ≠ none ↔
      (50 < pilot.groundspeed ∧
       0 < hav pilot.latitude pilot.longitude ap.lat ap.lon)) ∧
    (processPilot hav cache pilot ap mode).ete =
      (if 50 < pilot.groundspeed ∧
          0 < hav pilot.latitude pilot.longitude ap.lat ap.lon then
        some (hav pilot.latitude pilot.longitude ap.lat ap.lon /
          pilot.groundspeed * 60)
      else none) := by
  have h : (processPilot hav cache pilot ap mode).ete =
      (if 50 < pilot.groundspeed ∧
          0 < hav pilot.latitude pilot.longitude ap.lat ap.lon then
        some (hav pilot.latitude pilot.longitude ap.lat ap.lon /
          pilot.groundspeed * 60)
      else none) := rfl
  refine ⟨?_, h⟩
  rw [h]
  split_ifs with hc
  · simp [hc]
  · simp [hc]

/-- C7: each scheduler advance (`cyclePre`) resets the countdown to 15 and
either increments the page (direction unchanged) or, on the last page,
flips the direction and returns to page 0; with `totalPages = 3` starting
at page 0, three advances return to page 0 with the direction flipped
exactly once, on the third call (src/js/app.js lines 419-444). -/
theorem claim7_advance :
    (∀ s : PageState,
      cyclePre s =
        if s.currentPage < s.totalPages - 1 then
          { s with
              preCountdown := 15
              currentPage := s.currentPage + 1 }
        else
          { s with
              preCountdown := 15
              currentPage := 0
              displayMode := if s.displayMode = "dep" then "arr" else "dep" }) ∧
    (∀ s : PageState, (cyclePre s).preCountdown = 15) ∧
    cyclePre ⟨0, 3, 10, "dep", 3⟩ = ⟨1, 3, 10, "dep", 15⟩ ∧
    cyclePre (cyclePre ⟨0, 3, 10, "dep", 3⟩) = ⟨2, 3, 10, "dep", 15⟩ ∧
    cyclePre (cyclePre (cyclePre ⟨0, 3, 10, "dep", 3⟩)) = ⟨0, 3, 10, "arr", 15⟩ := by
  refine ⟨fun s => ?_, fun s => ?_, by decide, by decide, by decide⟩
  · by_cases h : s.currentPage < s.totalPages - 1 <;> simp [cyclePre, h]
  · by_cases h : s.currentPage < s.totalPages - 1 <;> simp [cyclePre, h]

/-- C10: before the airport table is loaded (`cache = none`), `getAirport`
returns null for every ICAO and `searchAirports` returns the empty list for
every query and limit; moreover `searchAirports` returns the empty list for
the empty query even on a loaded table (src/js/airports.js lines 95-128). -/
theorem claim10_unloaded_defaults :
    (∀ (K : Type) (icao : String), getAirport (K := K) none icao = none) ∧
    (∀ (K : Type) (query : String) (limit : Int),
      searchAirports (K := K) none query limit = []) ∧
    (∀ (K : Type) (m : List (String × Airport K)) (limit : Int),
      searchAirports (some m) "" limit = []) := by
  refine ⟨fun _ _ => rfl, fun _ _ _ => rfl, fun _ m limit => ?_⟩
  simp [searchAirports]

/-- C6: the pagination recompute of `renderFlights` (reached only with a
non-empty flight list and a positive page size) sets `totalPages` to
`ceil(flightCount / pageSize)` — equal to its clamp to at least 1 — resets
`currentPage` to 0 whenever it is out of range, establishes
`1 ≤ totalPages` and `currentPage < totalPages`, and every `cyclePre`
advance preserves that invariant (src/js/app.js lines 317-324, 419-444). -/
theorem claim6_pagination (s : PageState) (flightCount pageSize : Nat)
    (h1 : 1 ≤ flightCount) (h2 : 1 ≤ pageSize) :
    ((recomputePagination s flightCount pageSize).totalPages =
        max 1 (ceilDiv flightCount pageSize) ∧
      (ceilDiv flightCount pageSize ≤ s.currentPage →
        (recomputePagination s flightCount pageSize).currentPage = 0) ∧
      1 ≤ (recomputePagination s flightCount pageSize).totalPages ∧
      (recomputePagination s flightCount pageSize).currentPage <
        (recomputePagination s flightCount pageSize).totalPages) ∧
    (∀ t : PageState, 1 ≤ t.totalPages → t.currentPage < t.totalPages →
      1 ≤ (cyclePre t).totalPages ∧
      (cyclePre t).currentPage < (cyclePre t).totalPages) := by
  have hc : 1 ≤ ceilDiv flightCount pageSize := ceilDiv_pos _ _ h1 h2
  refine ⟨⟨?_, ?_, ?_, ?_⟩, ?_⟩
  · simp [recomputePagination, Nat.max_eq_right hc]
  · intro h
    simp [recomputePagination, if_pos h]
  · simpa [recomputePagination] using hc
  · simp only [recomputePagination]
    split_ifs with h
    · omega
    · omega
  · intro t ht hcp
    by_cases h : t.currentPage < t.totalPages - 1 <;>
      simp [cyclePre, h] <;> omega

/-- C6 witness: the theorem applied at 25 flights, page size 10 and the
initial state (page 0, 1 total page). -/
theorem claim6_wit :
    (recomputePagination ⟨0, 1, 10, "dep", 15⟩ 25 10).totalPages =
      max 1 (ceilDiv 25 10) :=
  (claim6_pagination ⟨0, 1, 10, "dep", 15⟩ 25 10 (by decide) (by decide)).1.1

/-- C3 counterexample: the callsign "N12345AB" (seven alphanumeric
characters after the N) does not match the claimed pattern, yet the code's
private-registration branch accepts it and classifies it as
"Private (United States)". -/
theorem claim3_cex :
    specNNumber "N12345AB" = false ∧
    getAirlineInfo none "N12345AB" =
      ⟨"N12345AB", some "Private (United States)", none, none⟩ :=
  ⟨by decide, by decide⟩

/-- C3 as amended: the private-registration branch fires exactly on the
callsigns whose uppercasing is the letter N followed by 1-5 digits and then
0-2 uppercase letters (up to 7 characters after the N); it then returns the
uppercased callsign as prefix with name "Private (United States)" and null
website/flight number, before every later rule; on all other callsigns the
branch is not taken and the later cascade decides. -/
theorem claim3_amended_private (cache : Option (List (String × AirlineRec)))
    (callsign : String) :
    (isNNumber callsign = true ↔
      ∃ ds ls : List Char, (jsToUpper callsign).data = 'N' :: (ds ++ ls) ∧
        1 ≤ ds.length ∧ ds.length ≤ 5 ∧ ls.length ≤ 2 ∧
        (∀ c ∈ ds, isDigitChar c = true) ∧ (∀ c ∈ ls, isUpperChar c = true)) ∧
    (isNNumber callsign = true →
      getAirlineInfo cache callsign =
        ⟨jsToUpper callsign, some "Private (United States)", none, none⟩) ∧
    (isNNumber callsign = false →
      getAirlineInfo cache callsign = airlineInfoAfterN cache callsign) := by
  refine ⟨?_, ?_, ?_⟩
  · by_cases hcs : callsign = ""
    · subst hcs
      constructor
      · intro h; exact absurd h (by decide)
      · rintro ⟨ds, ls, heq, -, -, -, -, -⟩
        exact absurd heq (by simp [jsToUpper])
    · unfold isNNumber
      rw [if_neg hcs]
      rcases hdata : (jsToUpper callsign).data with - | ⟨c, rest⟩
      · simp only []
        constructor
        · intro h; exact absurd h (by simp)
        · rintro ⟨ds, ls, heq, -, -, -, -, -⟩
          exact absurd heq (by simp)
      · simp only [Bool.and_eq_true, decide_eq_true_eq, List.all_eq_true]
        constructor
        · rintro ⟨hN, ⟨⟨h1, h5⟩, h2⟩, hup⟩
          subst hN
          refine ⟨rest.takeWhile isDigitChar, rest.dropWhile isDigitChar,
            ?_, h1, h5, h2, ?_, ?_⟩
          · rw [List.takeWhile_append_dropWhile]
          · intro c hc; exact List.mem_takeWhile_imp hc
          · intro c hc; exact hup c hc
        · rintro ⟨ds, ls, heq, h1, h5, h2, hdig, hup⟩
          obtain ⟨hcN, hrest⟩ : c = 'N' ∧ rest = ds ++ ls := by
            constructor
            · exact (List.cons.injEq _ _ _ _ ▸ heq).1
            · exact (List.cons.injEq _ _ _ _ ▸ heq).2
          subst hcN
          subst hrest
          have hls : ∀ ch ∈ ls, isDigitChar ch = false :=
            fun ch hch => upper_not_digit ch (hup ch hch)
          rw [takeWhile_append_all isDigitChar ds ls hdig hls,
            dropWhile_append_all isDigitChar ds ls hdig hls]
          exact ⟨rfl, ⟨⟨h1, h5⟩, h2⟩, hup⟩
  · intro h
    unfold getAirlineInfo
    rw [if_pos h]
  · intro h
    unfold getAirlineInfo
    rw [if_neg (by simp [h])]

/-- `infLt` on a mapped optional value, in existential form. -/
theorem infLt_map {α K : Type} [LinearOrderedField K] (o : Option α)
    (f : α → K) (c : K) :
    infLt (o.map f) c = true ↔ ∃ a, o = some a ∧ f a < c := by
  cases o <;> simp [infLt]

/-- `infLt2` on two mapped optional values, in existential form. -/
theorem infLt2_map {α β K : Type} [LinearOrderedField K] (o : Option α)
    (o2 : Option β) (f : α → K) (g : β → K) :
    infLt2 (o.map f) (o2.map g) = true ↔
      ∃ a, o = some a ∧ ∀ b, o2 = some b → f a < g b := by
  cases o <;> cases o2 <;> simp [infLt2]

/-- C2: the flight-stage classifier evaluates its branches in order —
ground, near-departure, near-arrival, high-altitude cruise, then the
proximity tie-break — with an unknown (null) airport's distance treated as
unbounded (never below a threshold, never smaller in the tie-break); in
particular groundspeed 20 / altitude 100 gives `ground` regardless of
airports, altitude 30000 with both airports unknown gives `cruising`, and
altitude 5000 at 30 nm from a known departure with arrival unknown gives
`departing` (src/unnamed/part_000 lines 35-83). -/
theorem claim2_stage_order {K : Type} [LinearOrderedField K]
    (hav : K → K → K → K → K) (p : Pilot K) (dep arr : Option (Airport K)) :
    ((p.groundspeed < 50 ∧ p.altitude < 500) →
      detectFlightStage hav p dep arr = Stage.ground) ∧
    (¬(p.groundspeed < 50 ∧ p.altitude < 500) →
      ((p.altitude < 10000 ∧
          (∃ a, dep = some a ∧ hav p.latitude p.longitude a.lat a.lon < 50)) →
        detectFlightStage hav p dep arr = Stage.departing) ∧
      (¬(p.altitude < 10000 ∧
          (∃ a, dep = some a ∧ hav p.latitude p.longitude a.lat a.lon < 50)) →
        ((p.altitude < 10000 ∧
            (∃ b, arr = some b ∧ hav p.latitude p.longitude b.lat b.lon < 100)) →
          detectFlightStage hav p dep arr = Stage.arriving) ∧
        (¬(p.altitude < 10000 ∧
            (∃ b, arr = some b ∧ hav p.latitude p.longitude b.lat b.lon < 100)) →
          (25000 < p.altitude →
            detectFlightStage hav p dep arr = Stage.cruising) ∧
          (¬(25000 < p.altitude) →
            ((∃ a, dep = some a ∧ ∀ b, arr = some b →
                hav p.latitude p.longitude a.lat a.lon <
                  hav p.latitude p.longitude b.lat b.lon) →
              detectFlightStage hav p dep arr = Stage.departing) ∧
            (¬(∃ a, dep = some a ∧ ∀ b, arr = some b →
                hav p.latitude p.longitude a.lat a.lon <
                  hav p.latitude p.longitude b.lat b.lon) →
              detectFlightStage hav p dep arr = Stage.arriving))))) ∧
    ((p.groundspeed = 20 ∧ p.altitude = 100) →
      detectFlightStage hav p dep arr = Stage.ground) ∧
    (p.altitude = 30000 → detectFlightStage hav p none none = Stage.cruising) ∧
    (∀ a : Airport K, p.altitude = 5000 →
      hav p.latitude p.longitude a.lat a.lon = 30 →
      detectFlightStage hav p (some a) none = Stage.departing) := by
  have e2 := infLt_map dep (fun a : Airport K => hav p.latitude p.longitude a.lat a.lon) (50 : K)
  have e3 := infLt2_map dep arr (fun a : Airport K => hav p.latitude p.longitude a.lat a.lon)
    (fun b : Airport K => hav p.latitude p.longitude b.lat b.lon)
  have e4 := infLt_map arr (fun b : Airport K => hav p.latitude p.longitude b.lat b.lon) (100 : K)
  refine ⟨?_, ?_, ?_, ?_, ?_⟩
  · intro h
    simp only [detectFlightStage]
    rw [if_pos h]
  · intro h1
    constructor
    · rintro ⟨ha, hd⟩
      simp only [detectFlightStage]
      rw [if_neg h1, if_pos ⟨ha, e2.mpr hd⟩]
    · intro h2
      constructor
      · rintro ⟨ha, hb⟩
        simp only [detectFlightStage]
        rw [if_neg h1, if_neg (fun hx => h2 ⟨hx.1, e2.mp hx.2⟩),
          if_pos ⟨ha, e4.mpr hb⟩]
      · intro h3
        constructor
        · intro h4
          simp only [detectFlightStage]
          rw [if_neg h1, if_neg (fun hx => h2 ⟨hx.1, e2.mp hx.2⟩),
            if_neg (fun hx => h3 ⟨hx.1, e4.mp hx.2⟩), if_pos h4]
        · intro h4
          constructor
          · intro h5
            simp only [detectFlightStage]
            rw [if_neg h1, if_neg (fun hx => h2 ⟨hx.1, e2.mp hx.2⟩),
              if_neg (fun hx => h3 ⟨hx.1, e4.mp hx.2⟩), if_neg h4,
              if_pos (e3.mpr h5)]
          · intro h5
            simp only [detectFlightStage]
            rw [if_neg h1, if_neg (fun hx => h2 ⟨hx.1, e2.mp hx.2⟩),
              if_neg (fun hx => h3 ⟨hx.1, e4.mp hx.2⟩), if_neg h4,
              if_neg (fun hx => h5 (e3.mp hx))]
  · rintro ⟨hg, ha⟩
    simp only [detectFlightStage]
    rw [if_pos ⟨hg ▸ (by norm_num : (20:K) < 50), ha ▸ (by norm_num : (100:K) < 500)⟩]
  · intro ha
    have h1 : ¬(p.groundspeed < 50 ∧ p.altitude < 500) := by
      rintro ⟨-, h⟩; rw [ha] at h; norm_num at h
    simp only [detectFlightStage, Option.map_none']
    rw [if_neg h1, if_neg (by rintro ⟨-, h⟩; simp [infLt] at h),
      if_neg (by rintro ⟨-, h⟩; simp [infLt] at h),
      if_pos (by rw [ha]; norm_num)]
  · intro a ha hd
    have h1 : ¬(p.groundspeed < 50 ∧ p.altitude < 500) := by
      rintro ⟨-, h⟩; rw [ha] at h; norm_num at h
    simp only [detectFlightStage, Option.map_some']
    rw [if_neg h1,
      if_pos ⟨by rw [ha]; norm_num,
        by simp only [infLt, decide_eq_true_eq]; rw [hd]; norm_num⟩]

/-- C1: for every snapshot with a pilots list, the pipeline's result is
(a permutation-faithful image of) exactly the pilots passing the direction
filter; with direction "dep" a pilot passes exactly when its flight plan
declares departure at the (uppercased) queried airport, or it has no flight
plan or no declared departure and is within 10 nm of the queried airport
below 3000 ft; with direction "arr" exactly when its flight plan declares
arrival at the queried airport (src/unnamed/part_000 lines 155-200). -/
theorem claim1_pipeline_inclusion {K : Type} [LinearOrderedField K]
    (hav : K → K → K → K → K) (lc : String → String → Int)
    (cache : Option (List (String × Airport K))) (pilots : List (Pilot K))
    (icao : String) (ap : Airport K) :
    (∀ mode : String,
      (getFlightsForAirport hav lc cache (some ⟨some pilots⟩) icao mode ap).Perm
        ((pilots.filter fun p => includePilot hav (jsToUpper icao) ap mode p).map
          fun p => processPilot hav cache p ap mode)) ∧
    (∀ p : Pilot K, includePilot hav (jsToUpper icao) ap "dep" p = true ↔
      ((∃ fp, p.flight_plan = some fp ∧ fp.departure = some (jsToUpper icao)) ∨
       ((p.flight_plan = none ∨
          ∃ fp, p.flight_plan = some fp ∧
            (fp.departure = none ∨ fp.departure = some "")) ∧
        hav p.latitude p.longitude ap.lat ap.lon < 10 ∧ p.altitude < 3000))) ∧
    (∀ p : Pilot K, includePilot hav (jsToUpper icao) ap "arr" p = true ↔
      ∃ fp, p.flight_plan = some fp ∧ fp.arrival = some (jsToUpper icao)) := by
  refine ⟨fun mode => ?_, fun p => ?_, fun p => ?_⟩
  · exact List.perm_insertionSort _ _
  · unfold includePilot
    rw [if_pos rfl]
    split
    next fp hfp =>
      rw [hfp]
      by_cases h1 : fp.departure = some (jsToUpper icao)
      · rw [if_pos h1]
        constructor
        · intro _; exact Or.inl ⟨fp, rfl, h1⟩
        · intro _; rfl
      · rw [if_neg h1]
        by_cases h2 : fp.departure = none ∨ fp.departure = some ""
        · rw [if_pos h2]
          simp only [decide_eq_true_eq]
          constructor
          · intro h; exact Or.inr ⟨Or.inr ⟨fp, rfl, h2⟩, h⟩
          · rintro (⟨fp2, hfp2, hdep⟩ | ⟨-, h⟩)
            · obtain rfl : fp = fp2 := Option.some_inj.mp hfp2
              exact absurd hdep h1
            · exact h
        · rw [if_neg h2]
          constructor
          · intro h; exact absurd h (by simp)
          · rintro (⟨fp2, hfp2, hdep⟩ | ⟨hnone, -⟩)
            · obtain rfl : fp = fp2 := Option.some_inj.mp hfp2
              exact absurd hdep h1
            · rcases hnone with h3 | ⟨fp2, hfp2, h4⟩
              · exact absurd h3 (by simp)
              · obtain rfl : fp = fp2 := Option.some_inj.mp hfp2
                exact absurd h4 h2
    next hfp =>
      rw [hfp]
      simp only [decide_eq_true_eq]
      constructor
      · intro h; exact Or.inr ⟨Or.inl trivial, h⟩
      · rintro (⟨fp, hfp2, -⟩ | ⟨-, h⟩)
        · exact absurd hfp2 (by simp)
        · exact h
  · unfold includePilot
    rw [if_neg (by decide : ¬("arr" : String) = "dep"), if_pos rfl]
    split
    next fp hfp =>
      rw [hfp]
      simp only [decide_eq_true_eq]
      constructor
      · intro h; exact ⟨fp, rfl, h⟩
      · rintro ⟨fp2, hfp2, h⟩
        obtain rfl : fp = fp2 := Option.some_inj.mp hfp2
        exact h
    next hfp =>
      rw [hfp]
      simp

/-- C9: the pipeline returns its enriched list sorted ascending by
`routeName` under the (abstract, total-preorder) `localeCompare` comparator,
the sort is stable — two flights with equal `routeName` keep their prior
relative order — and a flight named "Atlanta" precedes one named "Boston"
(src/unnamed/part_000 lines 196-199). -/
theorem claim9_sorted_stable {K : Type} [LinearOrderedField K]
    (hav : K → K → K → K → K) (lc : String → String → Int)
    (h_total : ∀ a b, lc a b ≤ 0 ∨ lc b a ≤ 0)
    (h_trans : ∀ a b c, lc a b ≤ 0 → lc b c ≤ 0 → lc a c ≤ 0)
    (h_refl : ∀ a, lc a a ≤ 0)
    (cache : Option (List (String × Airport K))) (vd : Option (VatsimData K))
    (icao mode : String) (ap : Airport K) :
    List.Sorted (fun a b : EnrichedFlight K => lc a.routeName b.routeName ≤ 0)
      (getFlightsForAirport hav lc cache vd icao mode ap) ∧
    (∀ (l : List (EnrichedFlight K)) (a b : EnrichedFlight K),
      a.routeName = b.routeName → [a, b].Sublist l →
      [a, b].Sublist (sortFlights lc l)) ∧
    (∀ a b : EnrichedFlight K, a.routeName = "Atlanta" → b.routeName = "Boston" →
      lc "Atlanta" "Boston" ≤ 0 → ¬ lc "Boston" "Atlanta" ≤ 0 →
      sortFlights lc [b, a] = [a, b]) := by
  haveI : IsTotal (EnrichedFlight K) (fun a b => lc a.routeName b.routeName ≤ 0) :=
    ⟨fun a b => h_total _ _⟩
  haveI : IsTrans (EnrichedFlight K) (fun a b => lc a.routeName b.routeName ≤ 0) :=
    ⟨fun a b c hab hbc => h_trans _ _ _ hab hbc⟩
  refine ⟨?_, ?_, ?_⟩
  · cases vd with
    | none => exact List.sorted_nil
    | some data =>
      obtain ⟨po⟩ := data
      cases po with
      | none => exact List.sorted_nil
      | some pilots => exact List.sorted_insertionSort _ _
  · intro l a b hab hsub
    refine List.pair_sublist_insertionSort ?_ hsub
    show lc a.routeName b.routeName ≤ 0
    rw [hab]; exact h_refl _
  · intro a b ha hb hAB hBA
    unfold sortFlights
    simp only [List.insertionSort, List.orderedInsert]
    rw [if_neg (by rw [ha, hb]; exact hBA)]

/-- C9 witness: the comparator ranking strings by their first character is
a total preorder, and the theorem's tie case places the concrete Atlanta
flight before the concrete Boston flight. -/
theorem claim9_wit :
    sortFlights lcRank [bosFlight, atlFlight] = [atlFlight, bosFlight] :=
  (claim9_sorted_stable (K := ℚ) (fun _ _ _ _ => 0) lcRank
      (fun a b => by unfold lcRank; omega)
      (fun a b c h1 h2 => by unfold lcRank at *; omega)
      (fun a => by unfold lcRank; omega)
      none none "" "" apQ).2.2 atlFlight bosFlight rfl rfl (by decide) (by decide)

/-- C4 counterexample: a pipeline run over a pilot whose flight plan
declares the two-character arrival "ZZ" produces an enriched flight whose
`routeIcao` is "ZZ" — neither a 4-letter code nor the literal "Unknown"
marker (the code never validates the declared ICAO's shape). -/
theorem claim4_cex :
    ((getFlightsForAirport (K := ℚ) (fun _ _ _ _ => 0) (fun _ _ => 0) none
        (some ⟨some [pZZ]⟩) "kjfk" "dep" apQ).map fun f => f.routeIcao) = ["ZZ"] ∧
    strLen "ZZ" ≠ 4 ∧ ("ZZ" : String) ≠ "Unknown" :=
  ⟨by decide, by decide, by decide⟩

/-- The `Unknown`-or-declared default: `(x || 'Unknown')` is never empty. -/
theorem getD_jsOrNull_ne_empty (o : Option String) :
    (jsOrNull o).getD "Unknown" ≠ "" := by
  cases ho : jsOrNull o with
  | none => simp
  | some s =>
    simp only [Option.getD_some]
    exact ((jsOrNull_eq_some o s).mp ho).2

/-- C4 as amended: every enriched flight produced by a pipeline run (over
the real haversine distance) has a stage among the four defined values, a
`routeIcao` that is the flight plan's declared (non-empty) route-leg string
or the literal "Unknown" marker — never empty, but not necessarily a
4-letter code — and a non-negative distance from the queried airport. -/
theorem claim4_amended_invariants (lc : String → String → Int)
    (cache : Option (List (String × Airport ℝ))) (vd : Option (VatsimData ℝ))
    (icao mode : String) (ap : Airport ℝ) (f : EnrichedFlight ℝ)
    (hf : f ∈ getFlightsForAirport haversine lc cache vd icao mode ap) :
    (f.stage = Stage.ground ∨ f.stage = Stage.departing ∨
      f.stage = Stage.cruising ∨ f.stage = Stage.arriving) ∧
    f.routeIcao ≠ "" ∧
    (f.routeIcao = "Unknown" ∨
      ∃ (p : Pilot ℝ) (fp : FlightPlan), p.flight_plan = some fp ∧
        f = processPilot haversine cache p ap mode ∧
        ((mode = "dep" ∧ fp.arrival = some f.routeIcao) ∨
         (¬mode = "dep" ∧ fp.departure = some f.routeIcao))) ∧
    0 ≤ f.distanceFromAirport := by
  obtain ⟨p, hpm, rfl⟩ :
      ∃ p : Pilot ℝ,
        (p ∈ vd.elim [] fun d => d.pilots.elim [] id) ∧
        f = processPilot haversine cache p ap mode := by
    cases vd with
    | none => exact absurd hf (List.not_mem_nil f)
    | some data =>
      obtain ⟨po⟩ := data
      cases po with
      | none => exact absurd hf (List.not_mem_nil f)
      | some pilots =>
        have hf2 : f ∈ (pilots.filter fun p =>
            includePilot haversine (jsToUpper icao) ap mode p).map
            (fun p => processPilot haversine cache p ap mode) :=
          (List.perm_insertionSort _ _).mem_iff.mp hf
        obtain ⟨p, hpm, hpe⟩ := List.mem_map.mp hf2
        exact ⟨p, List.mem_of_mem_filter hpm, hpe.symm⟩
  have hroute : (processPilot haversine cache p ap mode).routeIcao =
      if mode = "dep" then
        (jsOrNull (p.flight_plan.bind fun fp => fp.arrival)).getD "Unknown"
      else
        (jsOrNull (p.flight_plan.bind fun fp => fp.departure)).getD "Unknown" := rfl
  refine ⟨stage_cases _, ?_, ?_, ?_⟩
  · rw [hroute]
    split_ifs
    · exact getD_jsOrNull_ne_empty _
    · exact getD_jsOrNull_ne_empty _
  · by_cases hm : mode = "dep"
    · rcases ho : jsOrNull (p.flight_plan.bind fun fp => fp.arrival) with - | s
      · left
        rw [hroute, if_pos hm, ho]
        rfl
      · right
        obtain ⟨hbind, -⟩ := (jsOrNull_eq_some _ _).mp ho
        obtain ⟨fp, hfp, harr⟩ := Option.bind_eq_some.mp hbind
        refine ⟨p, fp, hfp, rfl, Or.inl ⟨hm, ?_⟩⟩
        rw [hroute, if_pos hm, ho, Option.getD_some]
        exact harr
    · rcases ho : jsOrNull (p.flight_plan.bind fun fp => fp.departure) with - | s
      · left
        rw [hroute, if_neg hm, ho]
        rfl
      · right
        obtain ⟨hbind, -⟩ := (jsOrNull_eq_some _ _).mp ho
        obtain ⟨fp, hfp, hdep⟩ := Option.bind_eq_some.mp hbind
        refine ⟨p, fp, hfp, rfl, Or.inr ⟨hm, ?_⟩⟩
        rw [hroute, if_neg hm, ho, Option.getD_some]
        exact hdep
  · have hd : (processPilot haversine cache p ap mode).distanceFromAirport =
        haversine p.latitude p.longitude ap.lat ap.lon := rfl
    rw [hd]
    exact haversine_nonneg _ _ _ _

/-- C4 witness: the invariants of the theorem at a concrete one-pilot
arrival-board run over the reals. -/
theorem claim4_wit :
    0 ≤ (processPilot (K := ℝ) haversine none pW apW "arr").distanceFromAirport := by
  have hmem : processPilot (K := ℝ) haversine none pW apW "arr" ∈
      getFlightsForAirport haversine (fun _ _ => 0) none
        (some ⟨some [pW]⟩) "klax" "arr" apW := by
    have he : getFlightsForAirport (K := ℝ) haversine (fun _ _ => 0) none
        (some ⟨some [pW]⟩) "klax" "arr" apW =
        [processPilot haversine none pW apW "arr"] := rfl
    rw [he]
    exact List.mem_singleton_self _
  exact (claim4_amended_invariants (fun _ _ => 0) none (some ⟨some [pW]⟩)
    "klax" "arr" apW _ hmem).2.2.2

/-- C8: the VATSpy loader parses only data lines inside the `[Airports]`
section — blank lines, comment lines and section headers are skipped, and
a header line just toggles the section flag — records flagged pseudo (7th
field "1") or with non-numeric latitude or non-numeric longitude are never
added; concretely, a table with one pseudo line, one NaN-longitude line
and one real line yields a lookup holding only the real entry keyed by its
uppercased ICAO (src/js/airports.js 14-61). -/
theorem claim8_vatspy_parse :
    (∀ (K : Type) (pf : String → Option K)
        (st : Bool × List (String × Airport K)) (line : String),
      jsTrim line = "" → vatspyStep pf st line = st) ∧
    (∀ (K : Type) (pf : String → Option K)
        (st : Bool × List (String × Airport K)) (line : String),
      startsWithChar '[' (jsTrim line) = false →
      startsWithChar ';' (jsTrim line) = true → vatspyStep pf st line = st) ∧
    (∀ (K : Type) (pf : String → Option K)
        (st : Bool × List (String × Airport K)) (line : String),
      startsWithChar '[' (jsTrim line) = true →
      vatspyStep pf st line = (decide (jsTrim line = "[Airports]"), st.2)) ∧
    (∀ (K : Type) (pf : String → Option K)
        (m : List (String × Airport K)) (line : String),
      startsWithChar '[' (jsTrim line) = false →
      vatspyStep pf (false, m) line = (false, m)) ∧
    (∀ (K : Type) (pf : String → Option K)
        (st : Bool × List (String × Airport K)) (line : String),
      (splitOnChar '|' (jsTrim line)).getD 6 "" = "1" →
      (vatspyStep pf st line).2 = st.2) ∧
    (∀ (K : Type) (pf : String → Option K)
        (st : Bool × List (String × Airport K)) (line : String),
      pf ((splitOnChar '|' (jsTrim line)).getD 2 "") = none →
      (vatspyStep pf st line).2 = st.2) ∧
    (∀ (K : Type) (pf : String → Option K)
        (st : Bool × List (String × Airport K)) (line : String),
      pf ((splitOnChar '|' (jsTrim line)).getD 3 "") = none →
      (vatspyStep pf st line).2 = st.2) ∧
    (parseVATSpyData parseFloatNat
        "[Airports]\nKXXX|Pseudo Apt|10|20|XXX|KZZZ|1\nKBAD|Bad Apt|50|xx|BAD|KZZZ\nkjfk |John F Kennedy Intl|40|73|JFK|KZNY" =
      [("KJFK", ⟨"KJFK", "John F Kennedy Intl", 40, 73, some "JFK", "KZNY"⟩)]) ∧
    (getAirport (some (parseVATSpyData parseFloatNat
        "[Airports]\nKXXX|Pseudo Apt|10|20|XXX|KZZZ|1\nKBAD|Bad Apt|50|xx|BAD|KZZZ\nkjfk |John F Kennedy Intl|40|73|JFK|KZNY"))
        "kjfk" =
      some ⟨"KJFK", "John F Kennedy Intl", 40, 73, some "JFK", "KZNY"⟩) := by
  refine ⟨?_, ?_, ?_, ?_, ?_, ?_, ?_, by decide, by decide⟩
  · intro K pf st line h
    simp [vatspyStep, h, startsWithChar]
  · intro K pf st line h1 h2
    simp [vatspyStep, h1, h2]
  · intro K pf st line h
    simp [vatspyStep, h]
  · intro K pf m line h
    unfold vatspyStep
    rw [if_neg (by simp [h])]
    split_ifs with hA hB
    · rfl
    · exact absurd hB (by simp)
    · rfl
  · intro K pf st line h
    simp only [vatspyStep]
    split_ifs <;> rfl
  · intro K pf st line h
    simp only [vatspyStep]
    split_ifs <;> try rfl
    rw [h]
  · intro K pf st line h
    simp only [vatspyStep]
    split_ifs <;> try rfl
    rw [h]
    rcases pf ((splitOnChar '|' (jsTrim line)).getD 2 "") with - | la <;> rfl

end StreamBoard
